import Mathlib

/-!
# Verification of the fero authorization-and-audit engine

A shallow embedding of the core of coreos/fero: byte-level serialization of
HSM log entries, the hash-chained Fero audit log, the quorum authorizer over
the relational store, the signing-service RPC handlers, the log engine, and
the bastion forwarder.  Machine integers are modelled as `Nat`/`Int` with
explicit reductions modulo `2^w` where the Rust code relies on wrapping or
two's-complement conversion.  External collaborators (the gpgme verifier,
the protobuf serializer, the HSM device) are modelled as explicit oracle
parameters whose interfaces match the Rust call sites.
-/

namespace Fero

/-! ## Byte-level primitives (byteorder's BigEndian writers and readers) -/

/-- Big-endian serialization of a `u16` (`WriteBytesExt::write_u16::<BigEndian>`). -/
def beU16 (n : Nat) : List Nat := [n / 256 % 256, n % 256]

/-- Big-endian serialization of a `u32` (`WriteBytesExt::write_u32::<BigEndian>`). -/
def beU32 (n : Nat) : List Nat :=
  [n / 2 ^ 24 % 256, n / 2 ^ 16 % 256, n / 2 ^ 8 % 256, n % 256]

/-- Big-endian serialization of a `u64`. -/
def beU64 (n : Nat) : List Nat :=
  [n / 2 ^ 56 % 256, n / 2 ^ 48 % 256, n / 2 ^ 40 % 256, n / 2 ^ 32 % 256,
   n / 2 ^ 24 % 256, n / 2 ^ 16 % 256, n / 2 ^ 8 % 256, n % 256]

/-- Two's-complement bit pattern of an `i64`. -/
def i64Bits (i : Int) : Nat := (i % (2 : Int) ^ 64).toNat

/-- Big-endian serialization of an `i64` (`ByteOrder::write_i64`). -/
def beI64 (i : Int) : List Nat := beU64 (i64Bits i)

/-- Two's-complement bit pattern of an `i32`. -/
def i32Bits (i : Int) : Nat := (i % (2 : Int) ^ 32).toNat

/-- Big-endian serialization of an `i32` (`WriteBytesExt::write_i32::<BigEndian>`). -/
def beI32 (i : Int) : List Nat := beU32 (i32Bits i)

/-- `u64 as i64` (two's-complement reinterpretation). -/
def u64AsI64 (n : Nat) : Int :=
  if n < 2 ^ 63 then (n : Int) else (n : Int) - 2 ^ 64

/-- `ReadBytesExt::read_u8`: one byte off the front of the cursor. -/
def readU8 : List Nat → Option (Nat × List Nat)
  | [] => none
  | b :: rest => some (b, rest)

/-- `ReadBytesExt::read_u16::<BigEndian>`. -/
def readU16 (l : List Nat) : Option (Nat × List Nat) := do
  let (b0, l) ← readU8 l
  let (b1, l) ← readU8 l
  pure (b0 * 256 + b1, l)

/-- `ReadBytesExt::read_u32::<BigEndian>`. -/
def readU32 (l : List Nat) : Option (Nat × List Nat) := do
  let (b0, l) ← readU8 l
  let (b1, l) ← readU8 l
  let (b2, l) ← readU8 l
  let (b3, l) ← readU8 l
  pure (b0 * 2 ^ 24 + b1 * 2 ^ 16 + b2 * 2 ^ 8 + b3, l)

/-- `Read::read_exact` into a `k`-byte buffer: fails when fewer than `k`
bytes remain. -/
def readExact (k : Nat) (l : List Nat) : Option (List Nat × List Nat) :=
  if k ≤ l.length then some (l.take k, l.drop k) else none

/-! ## HSM log entries (`fero-proto/src/log.rs`) -/

/-- `HsmLogEntry` from `fero-proto/src/log.rs`.  The Rust fields are `u16`,
`u8`, `u32`; here they are `Nat` together with the `wellFormed` bounds the
Rust types enforce. -/
structure HsmLogEntry where
  hsm_index : Nat
  command : Nat
  data_length : Nat
  session_key : Nat
  target_key : Nat
  second_key : Nat
  result : Nat
  systick : Nat
  hash : List Nat
  deriving Repr, DecidableEq

/-- The bounds guaranteed by the Rust field types of `HsmLogEntry`. -/
def HsmLogEntry.wellFormed (e : HsmLogEntry) : Prop :=
  e.hsm_index < 2 ^ 16 ∧ e.command < 2 ^ 8 ∧ e.data_length < 2 ^ 16 ∧
  e.session_key < 2 ^ 16 ∧ e.target_key < 2 ^ 16 ∧ e.second_key < 2 ^ 16 ∧
  e.result < 2 ^ 8 ∧ e.systick < 2 ^ 32

instance (e : HsmLogEntry) : Decidable e.wellFormed := by
  unfold HsmLogEntry.wellFormed; infer_instance

/-- `HsmLogEntry::to_bytes` (`fero-proto/src/log.rs:101`). -/
def HsmLogEntry.to_bytes (e : HsmLogEntry) : List Nat :=
  beU16 e.hsm_index ++ [e.command] ++ beU16 e.data_length ++
  beU16 e.session_key ++ beU16 e.target_key ++ beU16 e.second_key ++
  [e.result] ++ beU32 e.systick ++ e.hash

/-- `HsmLogEntry::from_bytes` (`fero-proto/src/log.rs:117`). -/
def HsmLogEntry.from_bytes (bytes : List Nat) : Option HsmLogEntry := do
  let (hsm_index, rest) ← readU16 bytes
  let (command, rest) ← readU8 rest
  let (data_length, rest) ← readU16 rest
  let (session_key, rest) ← readU16 rest
  let (target_key, rest) ← readU16 rest
  let (second_key, rest) ← readU16 rest
  let (result, rest) ← readU8 rest
  let (systick, rest) ← readU32 rest
  let (hash, _) ← readExact 16 rest
  pure ⟨hsm_index, command, data_length, session_key, target_key, second_key,
        result, systick, hash⟩

/-! ### Reader/writer inversion lemmas -/

theorem readU8_cons (b : Nat) (rest : List Nat) :
    readU8 (b :: rest) = some (b, rest) := rfl

theorem readU16_beU16 (n : Nat) (rest : List Nat) (h : n < 2 ^ 16) :
    readU16 (beU16 n ++ rest) = some (n, rest) := by
  have h1 : n / 256 % 256 = n / 256 := Nat.mod_eq_of_lt (by omega)
  simp [readU16, beU16, readU8, h1, bind, Option.bind]
  omega

theorem readU32_beU32 (n : Nat) (rest : List Nat) (h : n < 2 ^ 32) :
    readU32 (beU32 n ++ rest) = some (n, rest) := by
  have h1 : n / 2 ^ 24 % 256 = n / 2 ^ 24 := Nat.mod_eq_of_lt (by omega)
  simp [readU32, beU32, readU8, h1, bind, Option.bind]
  omega

theorem readExact_all (l : List Nat) (h : l.length = 16) :
    readExact 16 l = some (l, []) := by
  simp [readExact, h]

/-- C9: for every `HsmLogEntry` (fields within their Rust type bounds) whose
`hash` is exactly 16 bytes, `from_bytes (to_bytes e)` succeeds and returns
`e` field-for-field. -/
theorem hsm_log_roundtrip (e : HsmLogEntry) (hwf : e.wellFormed)
    (hlen : e.hash.length = 16) :
    HsmLogEntry.from_bytes e.to_bytes = some e := by
  obtain ⟨h1, h2, h3, h4, h5, h6, h7, h8⟩ := hwf
  rw [HsmLogEntry.from_bytes, HsmLogEntry.to_bytes]
  simp only [List.append_assoc, List.singleton_append]
  rw [readU16_beU16 _ _ h1]
  simp [bind, Option.bind, readU8]
  rw [readU16_beU16 _ _ h3]
  simp [Option.bind]
  rw [readU16_beU16 _ _ h4]
  simp [Option.bind]
  rw [readU16_beU16 _ _ h5]
  simp [Option.bind]
  rw [readU16_beU16 _ _ h6]
  simp [Option.bind, readU8]
  rw [readU32_beU32 _ _ h8]
  simp [Option.bind]
  rw [readExact_all _ hlen]

/-- Witness for C9 at a concrete entry. -/
theorem hsm_log_roundtrip_witness :
    HsmLogEntry.from_bytes
      (HsmLogEntry.to_bytes
        ⟨5, 2, 3, 4, 7, 8, 1, 90000, List.replicate 16 0⟩) =
      some ⟨5, 2, 3, 4, 7, 8, 1, 90000, List.replicate 16 0⟩ :=
  hsm_log_roundtrip ⟨5, 2, 3, 4, 7, 8, 1, 90000, List.replicate 16 0⟩
    (by decide) (by decide)

/-! ## SHA-256 (the `sha2` crate's `Sha256`), per FIPS 180-4, over byte lists -/

/-- Truncation to 32 bits (wrapping arithmetic of the compression function). -/
def m32 (n : Nat) : Nat := n % 2 ^ 32

/-- 32-bit right rotation. -/
def rotr32 (x n : Nat) : Nat := m32 ((x >>> n) ||| (x <<< (32 - n)))

def bSig0 (x : Nat) : Nat := rotr32 x 2 ^^^ rotr32 x 13 ^^^ rotr32 x 22

def bSig1 (x : Nat) : Nat := rotr32 x 6 ^^^ rotr32 x 11 ^^^ rotr32 x 25

def sSig0 (x : Nat) : Nat := rotr32 x 7 ^^^ rotr32 x 18 ^^^ (x >>> 3)

def sSig1 (x : Nat) : Nat := rotr32 x 17 ^^^ rotr32 x 19 ^^^ (x >>> 10)

def chOp (x y z : Nat) : Nat := (x &&& y) ^^^ ((x ^^^ 0xffffffff) &&& z)

def majOp (x y z : Nat) : Nat := (x &&& y) ^^^ (x &&& z) ^^^ (y &&& z)

/-- The SHA-256 round constants (FIPS 180-4 section 4.2.2, in decimal). -/
def sha256K : List Nat :=
  [1116352408, 1899447441, 3049323471, 3921009573, 961987163, 1508970993,
   2453635748, 2870763221, 3624381080, 310598401, 607225278, 1426881987,
   1925078388, 2162078206, 2614888103, 3248222580, 3835390401, 4022224774,
   264347078, 604807628, 770255983, 1249150122, 1555081692, 1996064986,
   2554220882, 2821834349, 2952996808, 3210313671, 3336571891, 3584528711,
   113926993, 338241895, 666307205, 773529912, 1294757372, 1396182291,
   1695183700, 1986661051, 2177026350, 2456956037, 2730485921, 2820302411,
   3259730800, 3345764771, 3516065817, 3600352804, 4094571909, 275423344,
   430227734, 506948616, 659060556, 883997877, 958139571, 1322822218,
   1537002063, 1747873779, 1955562222, 2024104815, 2227730452, 2361852424,
   2428436474, 2756734187, 3204031479, 3329325298]

/-- The SHA-256 initial hash value (FIPS 180-4 section 5.3.3, decimal). -/
def sha256H0 : List Nat :=
  [1779033703, 3144134277, 1013904242, 2773480762, 1359893119, 2600822924,
   528734635, 1541459225]

/-- Group a byte list into big-endian 32-bit words. -/
def bytesToWords : List Nat → List Nat
  | b0 :: b1 :: b2 :: b3 :: rest =>
    (b0 * 2 ^ 24 + b1 * 2 ^ 16 + b2 * 2 ^ 8 + b3) :: bytesToWords rest
  | _ => []

/-- Extend the 16-word message block by `n` further schedule words. -/
def extendW (ws : List Nat) : Nat → List Nat
  | 0 => ws
  | n + 1 =>
    let prev := extendW ws n
    let w2 := prev.getD (prev.length - 2) 0
    let w7 := prev.getD (prev.length - 7) 0
    let w15 := prev.getD (prev.length - 15) 0
    let w16 := prev.getD (prev.length - 16) 0
    prev ++ [m32 (sSig1 w2 + w7 + sSig0 w15 + w16)]

/-- One round of the SHA-256 compression function on the working variables
`[a, b, c, d, e, f, g, h]`. -/
def sha256Round (st : List Nat) (w k : Nat) : List Nat :=
  let a := st.getD 0 0
  let b := st.getD 1 0
  let c := st.getD 2 0
  let d := st.getD 3 0
  let e := st.getD 4 0
  let f := st.getD 5 0
  let g := st.getD 6 0
  let h := st.getD 7 0
  let t1 := m32 (h + bSig1 e + chOp e f g + k + w)
  let t2 := m32 (bSig0 a + majOp a b c)
  [m32 (t1 + t2), a, b, c, m32 (d + t1), e, f, g]

/-- Compress one 64-byte block into the running hash value. -/
def sha256Block (H : List Nat) (block : List Nat) : List Nat :=
  let W := extendW (bytesToWords block) 48
  let st := (W.zip sha256K).foldl (fun st wk => sha256Round st wk.1 wk.2) H
  (H.zip st).map fun xy => m32 (xy.1 + xy.2)

/-- Merkle–Damgård padding: `0x80`, zeros to 56 mod 64, then the 64-bit
big-endian bit length. -/
def sha256Pad (ms : List Nat) : List Nat :=
  ms ++ [0x80] ++ List.replicate ((120 - (ms.length + 1) % 64) % 64) 0 ++
    beU64 (ms.length * 8 % 2 ^ 64)

/-- Split a byte list into 64-byte chunks. -/
def chunks64 (l : List Nat) : List (List Nat) :=
  match l with
  | [] => []
  | b :: rest => ((b :: rest).take 64) :: chunks64 ((b :: rest).drop 64)
termination_by l.length
decreasing_by simp; omega

/-- SHA-256 of a byte list, as a 32-byte list. -/
def sha256 (ms : List Nat) : List Nat :=
  ((chunks64 (sha256Pad ms)).foldl sha256Block sha256H0).map beU32 |>.flatten

/-! ## Fero log entries (`fero-proto/src/log.rs`) -/

/-- `OperationType` (`#[repr(u8)]`, discriminants 0..4). -/
inductive OperationType where
  | Sign
  | Threshold
  | Weight
  | AddSecret
  | AddUser
  deriving Repr, DecidableEq

/-- `OperationType as u8`. -/
def OperationType.toByte : OperationType → Nat
  | .Sign => 0
  | .Threshold => 1
  | .Weight => 2
  | .AddSecret => 3
  | .AddUser => 4

/-- `OperationResult` (`#[repr(u8)]`, discriminants 0..1). -/
inductive OperationResult where
  | Success
  | Failure
  deriving Repr, DecidableEq

/-- `OperationResult as u8`. -/
def OperationResult.toByte : OperationResult → Nat
  | .Success => 0
  | .Failure => 1

/-- The protobuf `Identification` message (`secretKeyName`, `secretKeyId`,
`signatures`).  `secretKeyId` is a `u64`, modelled as a `Nat`. -/
structure Identification where
  secretKeyName : String
  secretKeyId : Nat
  signatures : List (List Nat)
  deriving Repr, DecidableEq

/-- `chrono::NaiveDateTime`: seconds since the epoch plus subsecond
nanoseconds.  `.timestamp()` is the `seconds` field. -/
structure NaiveDT where
  seconds : Int
  nanos : Nat
  deriving Repr, DecidableEq

/-- `FeroLogEntry` from `fero-proto/src/log.rs`. -/
structure FeroLogEntry where
  request_type : OperationType
  timestamp : NaiveDT
  result : OperationResult
  hsm_logs : List HsmLogEntry
  identification : Option Identification
  hash : List Nat
  deriving Repr, DecidableEq

/-- A default entry used only to totalize list indexing in statements. -/
def dummyEntry : FeroLogEntry :=
  ⟨.Sign, ⟨0, 0⟩, .Success, [], none, []⟩

/-- `FeroLogEntry::hash` (`fero-proto/src/log.rs:157`); named `computeHash`
because Lean reserves `FeroLogEntry.hash` for the structure field.  Each
`hasher.input(..)` appends to the absorbed byte stream and `hasher.result()`
is SHA-256 of the stream.  `wire` is protobuf's
`Identification::write_to_bytes`, an external-library parameter. -/
def FeroLogEntry.computeHash (wire : Identification → List Nat) (e : FeroLogEntry)
    (parent_log_hash : List Nat) : List Nat :=
  let h0 : List Nat := []
  let h1 := h0 ++ [e.request_type.toByte]
  let h2 := h1 ++ beI64 e.timestamp.seconds
  let h3 := h2 ++ [e.result.toByte]
  let h4 := e.hsm_logs.foldl (fun acc l => acc ++ l.to_bytes) h3
  let h5 := match e.identification with
    | some ident => h4 ++ wire ident
    | none => h4
  let h6 := h5 ++ parent_log_hash
  sha256 h6

/-- The loop body of `FeroLogEntry::verify`: check each entry against its
predecessor, returning the first failing entry. -/
def verifyFrom (wire : Identification → List Nat) (prev : FeroLogEntry) :
    List FeroLogEntry → Except FeroLogEntry Unit
  | [] => .ok ()
  | e :: rest =>
    if FeroLogEntry.computeHash wire e prev.hash = e.hash then verifyFrom wire e rest
    else .error e

/-- `FeroLogEntry::verify` (`fero-proto/src/log.rs:183`): the loop runs over
indices `1 .. n-1`, so the head entry is only ever used as a parent. -/
def FeroLogEntry.verify (wire : Identification → List Nat) :
    List FeroLogEntry → Except FeroLogEntry Unit
  | [] => .ok ()
  | e :: rest => verifyFrom wire e rest

/-- The claim's per-index chain condition: entry `i`'s stored hash equals the
hash recomputed from entry `i-1`'s stored hash. -/
def chainCheck (wire : Identification → List Nat) (entries : List FeroLogEntry)
    (i : Nat) : Prop :=
  (entries.getD i dummyEntry).hash =
    FeroLogEntry.computeHash wire (entries.getD i dummyEntry)
      (entries.getD (i - 1) dummyEntry).hash

instance (wire : Identification → List Nat) (entries : List FeroLogEntry)
    (i : Nat) : Decidable (chainCheck wire entries i) := by
  unfold chainCheck; infer_instance

theorem foldl_append_flatten {α : Type} (f : α → List Nat) (xs : List α)
    (acc : List Nat) :
    xs.foldl (fun a x => a ++ f x) acc = acc ++ (xs.map f).flatten := by
  induction xs generalizing acc with
  | nil => simp
  | cons x xs ih => simp [ih]

theorem getD_eq_get {α : Type} (l : List α) (d : α) (i : Nat)
    (h : i < l.length) : l.getD i d = l.get ⟨i, h⟩ := by
  induction l generalizing i with
  | nil => simp at h
  | cons a t ih =>
    cases i with
    | zero => rfl
    | succ j => exact ih j (by simpa using h)

theorem verifyFrom_ok_iff (wire : Identification → List Nat)
    (rest : List FeroLogEntry) : ∀ prev,
    (verifyFrom wire prev rest = .ok () ↔
      ∀ i, i < rest.length →
        FeroLogEntry.computeHash wire (rest.getD i dummyEntry)
            ((prev :: rest).getD i dummyEntry).hash =
          (rest.getD i dummyEntry).hash) := by
  induction rest with
  | nil =>
    intro prev
    constructor
    · intro _ i hi; exact absurd hi (Nat.not_lt_zero i)
    · intro _; rfl
  | cons e rest ih =>
    intro prev
    rw [verifyFrom]
    by_cases h : FeroLogEntry.computeHash wire e prev.hash = e.hash
    · rw [if_pos h, ih e]
      constructor
      · intro H i hi
        match i with
        | 0 => simpa using h
        | j + 1 =>
          have := H j (by simpa using hi)
          simpa using this
      · intro H j hj
        have := H (j + 1) (by simpa using Nat.succ_lt_succ hj)
        simpa using this
    · rw [if_neg h]
      constructor
      · intro H; simp at H
      · intro H
        exact absurd (by simpa using H 0 (by simp)) h

theorem verifyFrom_error_first (wire : Identification → List Nat) :
    ∀ (rest : List FeroLogEntry) (prev x : FeroLogEntry),
    verifyFrom wire prev rest = .error x →
    ∃ i, i < rest.length ∧ x = rest.getD i dummyEntry ∧
      ¬ FeroLogEntry.computeHash wire (rest.getD i dummyEntry)
          ((prev :: rest).getD i dummyEntry).hash =
        (rest.getD i dummyEntry).hash ∧
      ∀ j, j < i →
        FeroLogEntry.computeHash wire (rest.getD j dummyEntry)
            ((prev :: rest).getD j dummyEntry).hash =
          (rest.getD j dummyEntry).hash := by
  intro rest
  induction rest with
  | nil => intro prev x hx; simp [verifyFrom] at hx
  | cons e rest ih =>
    intro prev x hx
    rw [verifyFrom] at hx
    by_cases h : FeroLogEntry.computeHash wire e prev.hash = e.hash
    · rw [if_pos h] at hx
      obtain ⟨i, hi, hxi, hbad, hgood⟩ := ih e x hx
      refine ⟨i + 1, by simpa using Nat.succ_lt_succ hi, by simpa using hxi,
        by simpa using hbad, ?_⟩
      intro j hj
      cases j with
      | zero => simpa using h
      | succ k =>
        have := hgood k (by omega)
        simpa using this
    · rw [if_neg h] at hx
      injection hx with hxe
      subst hxe
      exact ⟨0, by simp, by simp, by simpa using h,
        fun j hj => absurd hj (Nat.not_lt_zero j)⟩

/-- C2: `FeroLogEntry::hash` absorbs exactly the request-type byte, the
big-endian `i64` of the timestamp's seconds, the result byte, the
concatenated serialized HSM log entries, the serialized identification bytes
(empty if absent) and the parent hash, in that order, and returns their
SHA-256; `FeroLogEntry::verify` succeeds iff every entry at index
`1 ≤ i < n` matches the hash recomputed from entry `i-1` (the root at index
0 is never checked), and on failure it reports the first mismatching
entry. -/
theorem fero_hash_and_verify_spec :
    (∀ (wire : Identification → List Nat) (e : FeroLogEntry)
        (parent : List Nat),
      FeroLogEntry.computeHash wire e parent =
        sha256 ([e.request_type.toByte] ++ beI64 e.timestamp.seconds ++
          [e.result.toByte] ++ (e.hsm_logs.map HsmLogEntry.to_bytes).flatten ++
          (match e.identification with
            | some ident => wire ident
            | none => []) ++ parent)) ∧
    (∀ (wire : Identification → List Nat) (entries : List FeroLogEntry),
      FeroLogEntry.verify wire entries = .ok () ↔
        ∀ i, 1 ≤ i → i < entries.length → chainCheck wire entries i) ∧
    (∀ (wire : Identification → List Nat) (entries : List FeroLogEntry)
        (x : FeroLogEntry),
      FeroLogEntry.verify wire entries = .error x →
        ∃ i, 1 ≤ i ∧ i < entries.length ∧ x = entries.getD i dummyEntry ∧
          ¬ chainCheck wire entries i ∧
          ∀ j, 1 ≤ j → j < i → chainCheck wire entries j) := by
  refine ⟨?_, ?_, ?_⟩
  · intro wire e parent
    rw [FeroLogEntry.computeHash]
    cases hid : e.identification <;>
      simp [foldl_append_flatten, hid]
  · intro wire entries
    cases entries with
    | nil =>
      simp only [FeroLogEntry.verify, List.length_nil]
      constructor
      · intro _ i h1 h2; exact absurd h2 (Nat.not_lt_zero i)
      · intro _; trivial
    | cons e0 rest =>
      rw [FeroLogEntry.verify, verifyFrom_ok_iff wire rest e0]
      constructor
      · intro H i h1 h2
        obtain ⟨j, rfl⟩ : ∃ k, i = k + 1 := ⟨i - 1, by omega⟩
        have := H j (by simpa using h2)
        unfold chainCheck
        simpa using this.symm
      · intro H j hj
        have := H (j + 1) (by omega) (by simpa using Nat.succ_lt_succ hj)
        unfold chainCheck at this
        simpa using this.symm
  · intro wire entries x hx
    cases entries with
    | nil => simp [FeroLogEntry.verify] at hx
    | cons e0 rest =>
      rw [FeroLogEntry.verify] at hx
      obtain ⟨i, hi, hxi, hbad, hgood⟩ := verifyFrom_error_first wire rest e0 x hx
      refine ⟨i + 1, by omega, by simpa using Nat.succ_lt_succ hi,
        by simpa using hxi, ?_, ?_⟩
      · unfold chainCheck
        intro hcc
        apply hbad
        simpa using hcc.symm
      · intro j hj1 hj2
        obtain ⟨k, rfl⟩ : ∃ k, j = k + 1 := ⟨j - 1, by omega⟩
        have := hgood k (by omega)
        unfold chainCheck
        simpa using this.symm

/-- Witness for C2: the empty chain verifies, via the second conjunct. -/
theorem fero_hash_and_verify_spec_witness :
    FeroLogEntry.verify (fun _ => []) [] = .ok () :=
  (fero_hash_and_verify_spec.2.1 (fun _ => []) []).mpr
    (fun i _ h2 => absurd h2 (Nat.not_lt_zero i))

/-- C10: `FeroLogEntry::verify` returns `Ok` for every list of length 0 or
1; in particular a single arbitrary (even tampered) entry always passes. -/
theorem verify_short_chain (wire : Identification → List Nat)
    (entries : List FeroLogEntry) (h : entries.length ≤ 1) :
    FeroLogEntry.verify wire entries = .ok () := by
  match entries with
  | [] => rfl
  | [e] => rfl
  | a :: b :: t => simp at h

/-- Witness for C10: a single entry whose stored hash is garbage still
verifies. -/
theorem verify_short_chain_witness :
    FeroLogEntry.verify (fun _ => [])
      [⟨.Sign, ⟨5, 0⟩, .Failure, [], none, [9, 9, 9]⟩] = .ok () ∧
    ([⟨.Sign, ⟨5, 0⟩, .Failure, [], none, [9, 9, 9]⟩] :
      List FeroLogEntry).length ≤ 1 :=
  ⟨verify_short_chain (fun _ => [])
      [⟨.Sign, ⟨5, 0⟩, .Failure, [], none, [9, 9, 9]⟩] (by decide),
    by decide⟩

/-! ## The relational store (`fero-server/src/database/models.rs`)

Each table is a list of rows in insertion (rowid) order.  Diesel `load` with
no `ORDER BY` returns rows in table order and `.pop()` takes the last
element; `load` with `.order(col.asc())` is modelled with a stable merge
sort on that column. -/

/-- `models::SecretKey`. -/
structure SecretRow where
  id : Int
  key_id : Option Int
  threshold : Int
  hsm_id : Int
  name : String
  deriving Repr, DecidableEq

/-- `models::UserKey`. -/
structure UserRow where
  id : Int
  key_id : Int
  key_data : List Nat
  deriving Repr, DecidableEq

/-- `models::UserKeyWeight`. -/
structure WeightRow where
  id : Int
  user_id : Int
  secret_id : Int
  weight : Int
  deriving Repr, DecidableEq

/-- `models::HsmLog`. -/
structure HsmLogRow where
  id : Int
  hsm_index : Int
  command : Int
  data_length : Int
  session_key : Int
  target_key : Int
  second_key : Int
  result : Int
  systick : Int
  hash : List Nat
  deriving Repr, DecidableEq

/-- `models::FeroLog`. -/
structure FeroLogRow where
  id : Int
  request_type : OperationType
  timestamp : NaiveDT
  result : OperationResult
  hsm_index_start : Int
  hsm_index_end : Int
  identification : Option (List Nat)
  hash : List Nat
  deriving Repr, DecidableEq

/-- The SQLite database behind `Configuration`. -/
structure Database where
  secrets : List SecretRow
  users : List UserRow
  weights : List WeightRow
  hsm_logs : List HsmLogRow
  fero_logs : List FeroLogRow
  deriving Repr, DecidableEq

/-! ## The gpgme verifier, as used by `Configuration::authenticate` -/

/-- One entry of `VerificationResult::signatures()`.  `summary` is the
`SignatureSummary` bitflag word; `fingerprint` is `none` when
`signature.fingerprint()` returns an error. -/
structure GpgSig where
  summary : Nat
  fingerprint : Option String
  deriving Repr, DecidableEq

/-- `SignatureSummary::VALID`. -/
def summaryVALID : Nat := 1

/-- `SignatureSummary::GREEN`. -/
def summaryGREEN : Nat := 2

/-- The gpgme engine seen through the calls `authenticate` makes, with the
imported keyring passed explicitly (the Rust context accumulates it via
`import`).  `verifyDetached keyring sig payload` yields the signature
reports; `findKey keyring fpr` resolves a fingerprint to a hex key-id
string. -/
structure GpgEngine where
  verifyDetached : List (List Nat) → List Nat → List Nat → List GpgSig
  findKey : List (List Nat) → String → Option String

/-- One hex digit, as accepted by `u64::from_str_radix(_, 16)`. -/
def hexDigitVal (c : Char) : Option Nat :=
  if c.toNat ≥ 48 ∧ c.toNat ≤ 57 then some (c.toNat - 48)
  else if c.toNat ≥ 97 ∧ c.toNat ≤ 102 then some (c.toNat - 97 + 10)
  else if c.toNat ≥ 65 ∧ c.toNat ≤ 70 then some (c.toNat - 65 + 10)
  else none

/-- `u64::from_str_radix(s, 16)`: all-hex-digit parse with overflow check
(the optional leading sign accepted by the Rust parser is irrelevant to gpg
key ids, which are bare hex). -/
def parseHexU64 (s : String) : Option Nat :=
  if s.data.isEmpty then none
  else
    (s.data.foldl
      (fun acc c => acc.bind fun n => (hexDigitVal c).map fun d => n * 16 + d)
      (some 0)).bind
      fun n => if n < 2 ^ 64 then some n else none

/-- `i64 as u64` (two's-complement reinterpretation). -/
def i64AsU64 (i : Int) : Nat := i64Bits i

/-- `i32 as u16` (truncating two's-complement reinterpretation). -/
def u16OfI32 (i : Int) : Nat := (i % (2 : Int) ^ 16).toNat

/-- `i32 as u32` (two's-complement reinterpretation). -/
def u32OfI32 (i : Int) : Nat := (i % (2 : Int) ^ 32).toNat

/-- `u32 as i32` (wrapping two's-complement reinterpretation). -/
def i32OfU32 (n : Nat) : Int :=
  if n < 2 ^ 31 then (n : Int) else (n : Int) - 2 ^ 32

/-- The failure cases of `Configuration::authenticate`. -/
inductive AuthError where
  | unknownSecret
  | fingerprintFailure
  | keyIdParseFailure
  | insufficientWeight
  deriving Repr, DecidableEq

/-- `database::AuthenticatedConnection`, minus the raw connection handle
(the single database is threaded as explicit state instead). -/
structure AuthenticatedConnection where
  secret_key : Option Nat
  secret_name : String
  deriving Repr, DecidableEq

/-- The summary test of `authenticate`'s inner loop: a report is skipped
when its summary is non-empty and neither `GREEN` nor `VALID`. -/
def accepted (r : GpgSig) : Bool :=
  r.summary == 0 || r.summary == summaryGREEN || r.summary == summaryVALID

/-- `HashSet::insert` on a set modelled as a duplicate-free list in
insertion order. -/
def insertId (ids : List Int) (v : Int) : List Int :=
  if ids.contains v then ids else ids ++ [v]

/-- The body of `authenticate`'s loop over one verification result:
accumulate resolved signer ids, propagating fingerprint and parse
failures. -/
def processReports (gpg : GpgEngine) (keyring : List (List Nat)) :
    List GpgSig → List Int → Except AuthError (List Int)
  | [], ids => .ok ids
  | r :: rest, ids =>
    if ¬ (accepted r) then processReports gpg keyring rest ids
    else
      match r.fingerprint with
      | none => .error .fingerprintFailure
      | some fpr =>
        match gpg.findKey keyring fpr with
        | some kid =>
          match parseHexU64 kid with
          | none => .error .keyIdParseFailure
          | some n => processReports gpg keyring rest (insertId ids (u64AsI64 n))
        | none => processReports gpg keyring rest ids

/-- `authenticate`'s loop over the supplied signatures. -/
def processSignatures (gpg : GpgEngine) (keyring : List (List Nat))
    (payload : List Nat) :
    List (List Nat) → List Int → Except AuthError (List Int)
  | [], ids => .ok ids
  | sig :: rest, ids =>
    match processReports gpg keyring (gpg.verifyDetached keyring sig payload)
        ids with
    | .error e => .error e
    | .ok ids2 => processSignatures gpg keyring payload rest ids2

/-- The weight lookup of `authenticate`: `user_secret_weights` joined with
`users`, filtered on the secret id and the signer key id; `.pop()` takes the
last row and a missing row contributes 0. -/
def lookupWeight (db : Database) (secretId : Int) (keyId : Int) : Int :=
  (((db.weights.filter fun w =>
      w.secret_id = secretId ∧
        db.users.any fun u => u.id == w.user_id && u.key_id == keyId).map
    fun w => w.weight).getLast?).getD 0

/-- The keyring `authenticate` imports: `key_data` of every user holding a
weight row for the secret (the join's row multiplicity and order only feed
`Context::import`, which is idempotent per key). -/
def applicableKeyring (db : Database) (secretId : Int) : List (List Nat) :=
  (db.users.filter fun u =>
    db.weights.any fun w => w.user_id == u.id && w.secret_id == secretId).map
    fun u => u.key_data

/-- `Configuration::authenticate` (`fero-server/src/database/mod.rs:42`). -/
def Configuration.authenticate (gpg : GpgEngine) (db : Database)
    (ident : Identification) (payload : List Nat) :
    Except AuthError (AuthenticatedConnection × List Nat) :=
  match (db.secrets.filter fun s => s.name = ident.secretKeyName).getLast? with
  | none => .error .unknownSecret
  | some secret =>
    let keyring := applicableKeyring db secret.id
    match processSignatures gpg keyring payload ident.signatures [] with
    | .error e => .error e
    | .ok ids =>
      let weight := ids.foldl (fun acc v => acc + lookupWeight db secret.id v) 0
      if weight ≥ secret.threshold then
        .ok (⟨secret.key_id.map i64AsU64, ident.secretKeyName⟩, payload)
      else
        .error .insufficientWeight

/-! ### The claim-side quorum sum for C1 -/

/-- Resolution of one report to a signer key id: fingerprint, `find_key`,
hex parse, `as i64`. -/
def resolveSigner (gpg : GpgEngine) (keyring : List (List Nat))
    (r : GpgSig) : Option Int :=
  ((r.fingerprint.bind (gpg.findKey keyring)).bind parseHexU64).map u64AsI64

/-- All resolved signer ids of the accepted reports, in report order,
duplicates included. -/
def verifiedSignerIds (gpg : GpgEngine) (keyring : List (List Nat))
    (payload : List Nat) (sigs : List (List Nat)) : List Int :=
  (sigs.map fun sig =>
    (gpg.verifyDetached keyring sig payload).filterMap fun r =>
      if accepted r then resolveSigner gpg keyring r else none).flatten

/-- The distinct verified signers (first occurrences). -/
def uniqueSigners (gpg : GpgEngine) (keyring : List (List Nat))
    (payload : List Nat) (sigs : List (List Nat)) : List Int :=
  (verifiedSignerIds gpg keyring payload sigs).foldl insertId []

/-- The claim's quorum sum: each distinct verified signer's stored weight
counted once, absent rows counting 0. -/
def signerWeightSum (db : Database) (secretId : Int) (gpg : GpgEngine)
    (payload : List Nat) (sigs : List (List Nat)) : Int :=
  (uniqueSigners gpg (applicableKeyring db secretId) payload sigs).foldl
    (fun acc v => acc + lookupWeight db secretId v) 0

/-- No verifier-level failure occurs: every accepted report carries a
fingerprint, and a found key id always parses as hex. -/
def noVerifierErrors (gpg : GpgEngine) (keyring : List (List Nat))
    (payload : List Nat) (sigs : List (List Nat)) : Prop :=
  ∀ sig ∈ sigs, ∀ r ∈ gpg.verifyDetached keyring sig payload,
    accepted r →
      (∃ fpr, r.fingerprint = some fpr ∧
        ∀ kid, gpg.findKey keyring fpr = some kid → parseHexU64 kid ≠ none)

theorem processReports_ok (gpg : GpgEngine) (keyring : List (List Nat))
    (reports : List GpgSig) : ∀ (ids : List Int),
    (∀ r ∈ reports, accepted r →
      ∃ fpr, r.fingerprint = some fpr ∧
        ∀ kid, gpg.findKey keyring fpr = some kid → parseHexU64 kid ≠ none) →
    processReports gpg keyring reports ids =
      .ok ((reports.filterMap fun r =>
        if accepted r then resolveSigner gpg keyring r else none).foldl
          insertId ids) := by
  induction reports with
  | nil => intro ids h; simp [processReports]
  | cons r rest ih =>
    intro ids h
    have hrest : ∀ x ∈ rest, accepted x →
        ∃ fpr, x.fingerprint = some fpr ∧
          ∀ kid, gpg.findKey keyring fpr = some kid → parseHexU64 kid ≠ none :=
      fun x hx => h x (List.mem_cons_of_mem r hx)
    by_cases hacc : accepted r
    · obtain ⟨fpr, hfpr, hparse⟩ := h r (List.mem_cons_self r rest) hacc
      cases hfind : gpg.findKey keyring fpr with
      | none =>
        rw [processReports]
        simp only [hacc, not_true, if_false, hfpr, hfind]
        rw [ih ids hrest]
        simp [resolveSigner, hfpr, hfind, hacc]
      | some kid =>
        cases hp : parseHexU64 kid with
        | none => exact absurd hp (hparse kid hfind)
        | some n =>
          rw [processReports]
          simp only [hacc, not_true, if_false, hfpr, hfind, hp]
          rw [ih (insertId ids (u64AsI64 n)) hrest]
          simp [resolveSigner, hfpr, hfind, hp, hacc]
    · rw [processReports]
      simp only [hacc, not_false_iff, if_true]
      rw [ih ids hrest]
      simp [hacc]

theorem processSignatures_ok (gpg : GpgEngine) (keyring : List (List Nat))
    (payload : List Nat) (sigs : List (List Nat)) : ∀ (ids : List Int),
    noVerifierErrors gpg keyring payload sigs →
    processSignatures gpg keyring payload sigs ids =
      .ok ((verifiedSignerIds gpg keyring payload sigs).foldl insertId ids) := by
  induction sigs with
  | nil => intro ids h; simp [processSignatures, verifiedSignerIds]
  | cons sig rest ih =>
    intro ids h
    have h1 := processReports_ok gpg keyring
      (gpg.verifyDetached keyring sig payload) ids
      (h sig (List.mem_cons_self sig rest))
    have h2 := ih
      (((gpg.verifyDetached keyring sig payload).filterMap fun r =>
        if accepted r then resolveSigner gpg keyring r else none).foldl
          insertId ids)
      (fun x hx => h x (List.mem_cons_of_mem sig hx))
    rw [processSignatures, h1]
    show processSignatures gpg keyring payload rest _ = _
    rw [h2]
    simp [verifiedSignerIds, List.foldl_append]

/-- The full admit/deny behaviour of `authenticate` once the secret is found
and the verifier raises no errors. -/
theorem authenticate_admits_iff (gpg : GpgEngine) (db : Database)
    (ident : Identification) (payload : List Nat) (secret : SecretRow)
    (hsec : (db.secrets.filter fun s => s.name = ident.secretKeyName).getLast?
      = some secret)
    (hnoerr : noVerifierErrors gpg (applicableKeyring db secret.id) payload
      ident.signatures) :
    Configuration.authenticate gpg db ident payload =
      (if signerWeightSum db secret.id gpg payload ident.signatures ≥
          secret.threshold
       then .ok (⟨secret.key_id.map i64AsU64, ident.secretKeyName⟩, payload)
       else .error .insufficientWeight) := by
  unfold Configuration.authenticate
  have hps := processSignatures_ok gpg (applicableKeyring db secret.id)
    payload ident.signatures [] hnoerr
  simp only [hsec, hps]
  rfl

/-- C1: with the identification naming a known secret (and the external
verifier raising no errors), `Configuration::authenticate` admits — returns
the `AuthenticatedConnection` handle — if and only if the sum of the stored
weights of the unique verified signers is at least the secret's threshold,
and otherwise fails with the insufficient-weight error. -/
theorem authenticate_quorum (gpg : GpgEngine) (db : Database)
    (ident : Identification) (payload : List Nat) (secret : SecretRow)
    (hsec : (db.secrets.filter fun s => s.name = ident.secretKeyName).getLast?
      = some secret)
    (hnoerr : noVerifierErrors gpg (applicableKeyring db secret.id) payload
      ident.signatures) :
    (Configuration.authenticate gpg db ident payload =
        .ok (⟨secret.key_id.map i64AsU64, ident.secretKeyName⟩, payload) ↔
      signerWeightSum db secret.id gpg payload ident.signatures ≥
        secret.threshold) ∧
    (¬ signerWeightSum db secret.id gpg payload ident.signatures ≥
        secret.threshold →
      Configuration.authenticate gpg db ident payload =
        .error .insufficientWeight) := by
  have h := authenticate_admits_iff gpg db ident payload secret hsec hnoerr
  by_cases hw : signerWeightSum db secret.id gpg payload ident.signatures ≥
      secret.threshold
  · rw [h, if_pos hw]
    exact ⟨⟨fun _ => hw, fun _ => rfl⟩, fun hc => absurd hw hc⟩
  · rw [h, if_neg hw]
    exact ⟨⟨fun heq => Except.noConfusion heq, fun hs => absurd hs hw⟩,
      fun _ => rfl⟩

/-- Fixtures for concrete evaluations of `authenticate`. -/
def gpgW : GpgEngine :=
  ⟨fun _ _ _ => [⟨0, some "k"⟩], fun _ _ => some "2a"⟩

def dbW : Database :=
  ⟨[⟨1, some 11, 1, 5, "demo"⟩], [⟨1, 42, [7]⟩], [⟨1, 1, 1, 1⟩], [], []⟩

def identW : Identification := ⟨"demo", 0, [[0]]⟩

theorem gpgW_noerr (keyring : List (List Nat)) (payload : List Nat)
    (sigs : List (List Nat)) : noVerifierErrors gpgW keyring payload sigs := by
  intro sig hs r hr hacc
  simp [gpgW] at hr
  subst hr
  refine ⟨"k", rfl, fun kid h => ?_⟩
  simp [gpgW] at h
  subst h
  decide

/-- Witness for C1: a one-signer quorum meeting a threshold of 1 is
admitted. -/
theorem authenticate_quorum_witness :
    Configuration.authenticate gpgW dbW identW [] =
      .ok (⟨some 11, "demo"⟩, []) :=
  (authenticate_quorum gpgW dbW identW [] ⟨1, some 11, 1, 5, "demo"⟩
      (by decide) (gpgW_noerr _ _ _)).1.mpr (by decide)

/-- A threshold-0 secret whose lone verified signer carries stored weight
-1. -/
def dbNeg : Database :=
  ⟨[⟨1, some 11, 0, 5, "z"⟩], [⟨1, 42, [7]⟩], [⟨1, 1, 1, -1⟩], [], []⟩

def identZ : Identification := ⟨"z", 0, [[0]]⟩

/-- Counterexample to C7 as stated: the secret's threshold is 0, yet the
request is rejected with the insufficient-weight error, because its one
verified signer has stored weight -1 and -1 < 0. -/
theorem threshold_zero_rejects_negative_weight :
    Configuration.authenticate gpgW dbNeg identZ [] =
      .error .insufficientWeight := rfl

/-- C7 (amended): a threshold-0 secret admits every request whose unique
verified signers sum to a non-negative stored weight — in particular every
request whose signature list is empty (no verified signers, sum 0). -/
theorem threshold_zero_admits (gpg : GpgEngine) (db : Database)
    (ident : Identification) (payload : List Nat) (secret : SecretRow)
    (hsec : (db.secrets.filter fun s => s.name = ident.secretKeyName).getLast?
      = some secret)
    (hthr : secret.threshold = 0)
    (hnoerr : noVerifierErrors gpg (applicableKeyring db secret.id) payload
      ident.signatures) :
    (signerWeightSum db secret.id gpg payload ident.signatures ≥ 0 →
      Configuration.authenticate gpg db ident payload =
        .ok (⟨secret.key_id.map i64AsU64, ident.secretKeyName⟩, payload)) ∧
    (ident.signatures = [] →
      Configuration.authenticate gpg db ident payload =
        .ok (⟨secret.key_id.map i64AsU64, ident.secretKeyName⟩, payload)) := by
  have h := authenticate_admits_iff gpg db ident payload secret hsec hnoerr
  constructor
  · intro hw
    rw [h, if_pos (by rw [hthr]; exact hw)]
  · intro hempty
    have hw : signerWeightSum db secret.id gpg payload ident.signatures = 0 := by
      rw [hempty]; rfl
    rw [h, if_pos (by rw [hthr, hw])]

/-- A threshold-0 secret with no users at all. -/
def dbZ : Database := ⟨[⟨1, some 11, 0, 5, "z"⟩], [], [], [], []⟩

def identZe : Identification := ⟨"z", 0, []⟩

/-- Witness for C7 (amended): an empty signature list is admitted against a
threshold-0 secret. -/
theorem threshold_zero_admits_witness :
    Configuration.authenticate gpgW dbZ identZe [] = .ok (⟨some 11, "z"⟩, []) :=
  (threshold_zero_admits gpgW dbZ identZe [] ⟨1, some 11, 0, 5, "z"⟩
      (by decide) (by decide) (gpgW_noerr _ _ _)).2 rfl

/-! ## Ordered queries: diesel `.order(col.asc())`

Modelled with a stable insertion sort on an integer key (SQLite returns the
rows in ascending key order; ties keep table order). -/

def insertSorted {α : Type} (key : α → Int) (x : α) : List α → List α
  | [] => [x]
  | y :: ys =>
    if key x ≤ key y then x :: y :: ys else y :: insertSorted key x ys

def sortByKey {α : Type} (key : α → Int) (l : List α) : List α :=
  l.foldr (insertSorted key) []

/-! ## Store operations (`fero-server/src/database/mod.rs`) -/

/-- `Configuration::fero_logs_since` (`mod.rs:156`). -/
def Configuration.fero_logs_since (db : Database) (idx : Int) :
    List FeroLogRow :=
  (sortByKey (fun f => f.id) db.fero_logs).filter fun f => f.id > idx

/-- `Configuration::associated_hsm_logs` (`mod.rs:166`). -/
def Configuration.associated_hsm_logs (db : Database) (f : FeroLogRow) :
    List HsmLogRow :=
  (sortByKey (fun h => h.hsm_index) db.hsm_logs).filter fun h =>
    f.hsm_index_start < h.hsm_index ∧ h.hsm_index ≤ f.hsm_index_end

/-- `Configuration::last_hsm_log_entry` (`mod.rs:177`): load ascending by
`hsm_index`, pop the last. -/
def Configuration.last_hsm_log_entry (db : Database) : Option HsmLogRow :=
  (sortByKey (fun h => h.hsm_index) db.hsm_logs).getLast?

/-- `Configuration::last_fero_log_entry` (`mod.rs:186`). -/
def Configuration.last_fero_log_entry (db : Database) : Option FeroLogRow :=
  (sortByKey (fun f => f.id) db.fero_logs).getLast?

/-- SQLite rowid assignment for an insert: one more than the largest
existing rowid (1 on an empty table).  Modelled from the spec: the
migrations defining the integer primary keys are not part of the source
snapshot; §3 fixes ids as dense from 1. -/
def nextRowId (ids : List Int) : Int := ids.foldl max 0 + 1

def nextHsmRowId (db : Database) : Int :=
  nextRowId (db.hsm_logs.map fun r => r.id)

def nextFeroRowId (db : Database) : Int :=
  nextRowId (db.fero_logs.map fun r => r.id)

def nextWeightRowId (db : Database) : Int :=
  nextRowId (db.weights.map fun r => r.id)

/-- `models::NewHsmLog`. -/
structure NewHsmLog where
  hsm_index : Int
  command : Int
  data_length : Int
  session_key : Int
  target_key : Int
  second_key : Int
  result : Int
  systick : Int
  hash : List Nat
  deriving Repr, DecidableEq

/-- `Configuration::insert_hsm_logs` (`mod.rs:202`): insert each row in one
transaction, then `SELECT last_insert_rowid()` on the same fresh connection
— 0 when the batch was empty. -/
def Configuration.insert_hsm_logs (db : Database) (logs : List NewHsmLog) :
    Database × Option Int :=
  let st := logs.foldl
    (fun (st : Database × Int) log =>
      let rid := nextHsmRowId st.1
      ({ st.1 with
          hsm_logs := st.1.hsm_logs ++
            [⟨rid, log.hsm_index, log.command, log.data_length,
              log.session_key, log.target_key, log.second_key, log.result,
              log.systick, log.hash⟩] }, rid))
    (db, 0)
  (st.1, some st.2)

/-- `models::NewFeroLog`. -/
structure NewFeroLog where
  request_type : OperationType
  timestamp : NaiveDT
  result : OperationResult
  hsm_index_start : Int
  hsm_index_end : Int
  identification : Option (List Nat)
  hash : List Nat
  deriving Repr, DecidableEq

/-- `NewFeroLog::default` (`models.rs:95`): the synthetic root; `rootHash`
stands for the SHA-256 of the 32 `thread_rng` bytes. -/
def NewFeroLog.default (rootHash : List Nat) : NewFeroLog :=
  ⟨.Sign, ⟨0, 0⟩, .Success, 0, 0, none, rootHash⟩

/-- `Configuration::insert_fero_log` (`mod.rs:216`). -/
def Configuration.insert_fero_log (db : Database) (log : NewFeroLog) :
    Database :=
  { db with
      fero_logs := db.fero_logs ++
        [⟨nextFeroRowId db, log.request_type, log.timestamp, log.result,
          log.hsm_index_start, log.hsm_index_end, log.identification,
          log.hash⟩] }

/-! ## The HSM adapter and the log engine (`fero-server/src/logging.rs`) -/

/-- `libyubihsm::LogEntry` as drained from the device. -/
structure DeviceLogEntry where
  index : Nat
  command : Nat
  data_length : Nat
  session_key : Nat
  target_key : Nat
  second_key : Nat
  result : Nat
  systick : Nat
  digest : List Nat
  deriving Repr, DecidableEq

/-- `hsm::Hsm` through the calls the service and log engine make; the two
signature producers are external oracles (device plus `pretty_good` packet
assembly).  `set_log_index` only affects device-side log retention and has
no store-visible effect. -/
structure Hsm where
  logs : List DeviceLogEntry
  logsSince : Nat → List DeviceLogEntry
  pgpSignatureBytes : List Nat → Nat → Nat → Except Unit (List Nat)
  createRsaSignature : List Nat → Nat → Except Unit (List Nat)

/-- `impl From<libyubihsm::LogEntry> for NewHsmLog` (`logging.rs:15`):
`u16`/`u8` widen losslessly into `i32`; `systick` is `u32 as i32`. -/
def NewHsmLog.fromDevice (l : DeviceLogEntry) : NewHsmLog :=
  ⟨(l.index : Int), (l.command : Int), (l.data_length : Int),
   (l.session_key : Int), (l.target_key : Int), (l.second_key : Int),
   (l.result : Int), i32OfU32 l.systick, l.digest⟩

/-- `create_fero_log` (`logging.rs:34`).  `now` is the `Utc::now()` read at
append time that the function stamps into the entry (it receives no
caller timestamp). -/
def create_fero_log (wire : Identification → List Nat)
    (request_type : OperationType) (result : OperationResult)
    (hsm_logs : List DeviceLogEntry) (hsm_index_start hsm_index_end : Int)
    (parent_entry : FeroLogRow) (identification : Option Identification)
    (now : NaiveDT) : NewFeroLog :=
  let entries := hsm_logs.map fun l =>
    (⟨l.index, l.command, l.data_length, l.session_key, l.target_key,
      l.second_key, l.result, l.systick, l.digest⟩ : HsmLogEntry)
  let new_fero_log : FeroLogEntry :=
    ⟨request_type, now, result, entries, identification, []⟩
  { request_type := request_type
    timestamp := now
    result := result
    hsm_index_start := hsm_index_start
    hsm_index_end := hsm_index_end
    identification := identification.map wire
    hash := FeroLogEntry.computeHash wire new_fero_log parent_entry.hash }

/-- A placeholder for the `.expect` re-read of the freshly inserted root
(`logging.rs:114`), which cannot fail. -/
def impossibleRoot : FeroLogRow := ⟨0, .Sign, ⟨0, 0⟩, .Success, 0, 0, none, []⟩

/-- `log_operation` (`logging.rs:84`).  `now` models the append-time clock
read inside `create_fero_log`; `rootHash` models the random root seed. -/
def log_operation (wire : Identification → List Nat) (hsm : Hsm)
    (db : Database) (request_type : OperationType) (result : OperationResult)
    (identification : Option Identification) (now : NaiveDT)
    (rootHash : List Nat) : Database :=
  let lastHsm := Configuration.last_hsm_log_entry db
  let hsm_logs := match lastHsm with
    | some l => hsm.logsSince (u16OfI32 l.hsm_index)
    | none => hsm.logs
  let last_hsm_index := (lastHsm.map fun l => l.hsm_index).getD 0
  let ins := Configuration.insert_hsm_logs db (hsm_logs.map NewHsmLog.fromDevice)
  let db1 := ins.1
  let new_hsm_index := ins.2
  let pr := match Configuration.last_fero_log_entry db1 with
    | some p => (db1, p)
    | none =>
      let db2 := Configuration.insert_fero_log db1 (NewFeroLog.default rootHash)
      (db2, (Configuration.last_fero_log_entry db2).getD impossibleRoot)
  let new_fero_log := create_fero_log wire request_type result hsm_logs
    last_hsm_index (new_hsm_index.getD last_hsm_index) pr.2 identification now
  Configuration.insert_fero_log pr.1 new_fero_log

/-! ## The signing service (`fero-server/src/service.rs`) -/

/-- The error cases surfaced by the `FeroService` private methods. -/
inductive ServiceError where
  | auth (e : AuthError)
  | noSuchUser
  | secretDeleted
  | nonPgpKey
  | hsmFailure
  deriving Repr, DecidableEq

/-- `format!("{}", e)` for the failure surfaced to the client (interpolated
payloads abridged to the fixed message text). -/
def serviceErrorMessage : ServiceError → String
  | .auth .unknownSecret => "No secret key found"
  | .auth .fingerprintFailure => "Failed to get signature fingerprint"
  | .auth .keyIdParseFailure => "invalid digit found in string"
  | .auth .insufficientWeight => "Signatures do not meet threshold"
  | .noSuchUser => "No such user"
  | .secretDeleted => "Secret key deleted while in use?"
  | .nonPgpKey => "Tried to use non-PGP key for PGP signature"
  | .hsmFailure => "HSM error"

/-- UTF-8 encoding of one scalar value (`str::as_bytes`). -/
def charUtf8 (c : Char) : List Nat :=
  let n := c.toNat
  if n < 0x80 then [n]
  else if n < 0x800 then
    [0xc0 ||| (n >>> 6), 0x80 ||| (n &&& 0x3f)]
  else if n < 0x10000 then
    [0xe0 ||| (n >>> 12), 0x80 ||| ((n >>> 6) &&& 0x3f),
     0x80 ||| (n &&& 0x3f)]
  else
    [0xf0 ||| (n >>> 18), 0x80 ||| ((n >>> 12) &&& 0x3f),
     0x80 ||| ((n >>> 6) &&& 0x3f), 0x80 ||| (n &&& 0x3f)]

/-- `secret_name.as_bytes()`. -/
def stringBytes (s : String) : List Nat := (s.data.map charUtf8).flatten

/-- `AuthenticatedConnection::get_hsm_key_id` (`mod.rs:238`). -/
def AuthenticatedConnection.get_hsm_key_id (conn : AuthenticatedConnection)
    (db : Database) : Except ServiceError Nat :=
  match (db.secrets.filter fun s => s.name = conn.secret_name).getLast? with
  | some key => .ok (u16OfI32 key.hsm_id)
  | none => .error .secretDeleted

/-- `AuthenticatedConnection::get_user_key` (`mod.rs:247`). -/
def AuthenticatedConnection.get_user_key (db : Database) (key_id : Nat) :
    Option UserRow :=
  (db.users.filter fun u => u.key_id = u64AsI64 key_id).getLast?

/-- `AuthenticatedConnection::upsert_user_key_weight` (`mod.rs:254`). -/
def AuthenticatedConnection.upsert_user_key_weight
    (conn : AuthenticatedConnection) (db : Database) (user : UserRow)
    (weight : Int) : Except ServiceError Database :=
  match (db.secrets.filter fun s => s.name = conn.secret_name).getLast? with
  | none => .error .secretDeleted
  | some secret =>
    if (db.weights.filter fun w =>
        w.user_id = user.id ∧ w.secret_id = secret.id).getLast?.isSome then
      .ok { db with
        weights := db.weights.map fun w =>
          if w.user_id = user.id ∧ w.secret_id = secret.id then
            { w with weight := weight }
          else w }
    else
      .ok { db with
        weights := db.weights ++
          [⟨nextWeightRowId db, user.id, secret.id, weight⟩] }

/-- `AuthenticatedConnection::set_secret_key_threshold` (`mod.rs:289`): an
UPDATE of `secrets` filtered on `key_id = secret_key_id as i64` — not on the
authenticated secret's name. -/
def AuthenticatedConnection.set_secret_key_threshold (db : Database)
    (secret_key_id : Nat) (threshold : Int) : Database :=
  { db with
      secrets := db.secrets.map fun s =>
        if s.key_id = some (u64AsI64 secret_key_id) then
          { s with threshold := threshold }
        else s }

/-- `SignRequest_SignatureType`. -/
inductive SignatureType where
  | PGP
  | PKCS1V1_5
  deriving Repr, DecidableEq

/-- `FeroService::set_secret_key_threshold` (`service.rs:189`). -/
def FeroService.set_secret_key_threshold (gpg : GpgEngine) (db : Database)
    (ident : Identification) (threshold : Int) :
    Except ServiceError Database :=
  let payload := stringBytes ident.secretKeyName ++ beI32 threshold
  match Configuration.authenticate gpg db ident payload with
  | .error e => .error (.auth e)
  | .ok _ =>
    .ok (AuthenticatedConnection.set_secret_key_threshold db
      ident.secretKeyId threshold)

/-- `FeroService::set_user_key_weight` (`service.rs:203`). -/
def FeroService.set_user_key_weight (gpg : GpgEngine) (db : Database)
    (ident : Identification) (user_key_id : Nat) (weight : Int) :
    Except ServiceError Database :=
  let payload := stringBytes ident.secretKeyName ++ beU64 user_key_id ++
    beI32 weight
  match Configuration.authenticate gpg db ident payload with
  | .error e => .error (.auth e)
  | .ok (conn, _) =>
    match AuthenticatedConnection.get_user_key db user_key_id with
    | some user =>
      AuthenticatedConnection.upsert_user_key_weight conn db user weight
    | none => .error .noSuchUser

/-- `FeroService::sign_payload` (`service.rs:223`). -/
def FeroService.sign_payload (gpg : GpgEngine) (hsm : Hsm) (db : Database)
    (ident : Identification) (payload : List Nat)
    (sig_type : SignatureType) : Except ServiceError (List Nat) :=
  match Configuration.authenticate gpg db ident payload with
  | .error e => .error (.auth e)
  | .ok (conn, data) =>
    match AuthenticatedConnection.get_hsm_key_id conn db with
    | .error e => .error e
    | .ok hsm_key =>
      match sig_type with
      | .PGP =>
        match conn.secret_key with
        | some pgp_key_id =>
          match hsm.pgpSignatureBytes data hsm_key pgp_key_id with
          | .ok sig => .ok sig
          | .error _ => .error .hsmFailure
        | none => .error .nonPgpKey
      | .PKCS1V1_5 =>
        match hsm.createRsaSignature data hsm_key with
        | .ok sig => .ok sig
        | .error _ => .error .hsmFailure

/-! ## The RPC handlers (`impl Fero for FeroService`, `service.rs:38`) -/

inductive RpcStatusCode where
  | PermissionDenied
  | InvalidArgument
  | Aborted
  deriving Repr, DecidableEq

structure RpcStatus where
  status : RpcStatusCode
  details : Option String
  deriving Repr, DecidableEq

structure SignRequest where
  identification : Identification
  payload : List Nat
  sigType : SignatureType
  timestamp : NaiveDT
  deriving Repr, DecidableEq

structure ThresholdRequest where
  identification : Identification
  threshold : Int
  timestamp : NaiveDT
  deriving Repr, DecidableEq

structure WeightRequest where
  identification : Identification
  userKeyId : Nat
  weight : Int
  timestamp : NaiveDT
  deriving Repr, DecidableEq

structure LogRequest where
  minIndex : Int
  deriving Repr, DecidableEq

/-- `Fero::sign_payload` handler (`service.rs:39`).  The handler derives
`timestamp` from the request, but `log_operation`'s signature has no
parameter to receive it, so only the append-time clock `now` reaches the
log (see the code-bug analysis of C4). -/
def sign_payload_handler (gpg : GpgEngine) (hsm : Hsm)
    (wire : Identification → List Nat) (db : Database) (req : SignRequest)
    (now : NaiveDT) (rootHash : List Nat) :
    Database × Except RpcStatus (List Nat) :=
  let operation_result :=
    FeroService.sign_payload gpg hsm db req.identification req.payload
      req.sigType
  let logged_result := match operation_result with
    | .ok _ => OperationResult.Success
    | .error _ => OperationResult.Failure
  let db1 := log_operation wire hsm db .Sign logged_result
    (some req.identification) now rootHash
  match operation_result with
  | .ok sig => (db1, .ok sig)
  | .error e =>
    (db1, .error ⟨.PermissionDenied, some (serviceErrorMessage e)⟩)

/-- `Fero::set_secret_key_threshold` handler (`service.rs:83`): every
failure of the inner operation — authorization included — maps to
`InvalidArgument`. -/
def set_secret_key_threshold_handler (gpg : GpgEngine) (hsm : Hsm)
    (wire : Identification → List Nat) (db : Database)
    (req : ThresholdRequest) (now : NaiveDT) (rootHash : List Nat) :
    Database × Except RpcStatus Unit :=
  let operation_result :=
    FeroService.set_secret_key_threshold gpg db req.identification
      req.threshold
  let logged_result := match operation_result with
    | .ok _ => OperationResult.Success
    | .error _ => OperationResult.Failure
  let db0 := match operation_result with
    | .ok db2 => db2
    | .error _ => db
  let db1 := log_operation wire hsm db0 .Threshold logged_result
    (some req.identification) now rootHash
  match operation_result with
  | .ok _ => (db1, .ok ())
  | .error e =>
    (db1, .error ⟨.InvalidArgument, some (serviceErrorMessage e)⟩)

/-- `Fero::set_user_key_weight` handler (`service.rs:124`). -/
def set_user_key_weight_handler (gpg : GpgEngine) (hsm : Hsm)
    (wire : Identification → List Nat) (db : Database) (req : WeightRequest)
    (now : NaiveDT) (rootHash : List Nat) :
    Database × Except RpcStatus Unit :=
  let operation_result :=
    FeroService.set_user_key_weight gpg db req.identification req.userKeyId
      req.weight
  let logged_result := match operation_result with
    | .ok _ => OperationResult.Success
    | .error _ => OperationResult.Failure
  let db0 := match operation_result with
    | .ok db2 => db2
    | .error _ => db
  let db1 := log_operation wire hsm db0 .Weight logged_result
    (some req.identification) now rootHash
  match operation_result with
  | .ok _ => (db1, .ok ())
  | .error e =>
    (db1, .error ⟨.InvalidArgument, some (serviceErrorMessage e)⟩)

/-- The wire `HsmLog` message built by `get_logs` (`service.rs:258`), all
fields `as u32`. -/
structure WireHsmLog where
  id : Nat
  command : Nat
  data_length : Nat
  session_key : Nat
  target_key : Nat
  second_key : Nat
  result : Nat
  systick : Nat
  hash : List Nat
  deriving Repr, DecidableEq

/-- The wire `LogEntry` message built by `get_logs` (`service.rs:275`). -/
structure WireLogEntry where
  id : Int
  operation_type : OperationType
  timestamp : NaiveDT
  result : OperationResult
  ident : Option Identification
  hsm_logs : List WireHsmLog
  hash : List Nat
  deriving Repr, DecidableEq

/-- `FeroService::get_logs` (`service.rs:250`).  `parseIdent` is protobuf's
`merge_from_bytes`, whose failure aborts the whole projection. -/
def FeroService.get_logs (parseIdent : List Nat → Except Unit Identification)
    (db : Database) (min_index : Int) : Except Unit (List WireLogEntry) :=
  (Configuration.fero_logs_since db min_index).mapM fun f => do
    let hsm_logs := (Configuration.associated_hsm_logs db f).map fun h =>
      (⟨u32OfI32 h.hsm_index, u32OfI32 h.command, u32OfI32 h.data_length,
        u32OfI32 h.session_key, u32OfI32 h.target_key, u32OfI32 h.second_key,
        u32OfI32 h.result, u32OfI32 h.systick, h.hash⟩ : WireHsmLog)
    let ident ← match f.identification with
      | some bytes => Except.map some (parseIdent bytes)
      | none => pure none
    pure (⟨f.id, f.request_type, f.timestamp, f.result, ident, hsm_logs,
      f.hash⟩ : WireLogEntry)

/-- `Fero::get_logs` handler (`service.rs:166`): retrieval failures map to
`Aborted` (the Rust message interpolates the cause after the text below,
typo preserved). -/
def get_logs_handler (parseIdent : List Nat → Except Unit Identification)
    (db : Database) (req : LogRequest) :
    Except RpcStatus (List WireLogEntry) :=
  match FeroService.get_logs parseIdent db req.minIndex with
  | .ok logs => .ok logs
  | .error _ => .error ⟨.Aborted, some "Failed to retrive logs"⟩

/-! ## The bastion (`fero-bastion/src/service.rs`) -/

/-- `bastion_call_with_timestamp!` for `sign_payload`: stamp `Utc::now()`
into the request, forward, and on any interior error reply
`PermissionDenied` with a fixed message. -/
def bastion_sign_payload
    (client : SignRequest → Except RpcStatus (List Nat)) (now : NaiveDT)
    (req : SignRequest) : Except RpcStatus (List Nat) :=
  match client { req with timestamp := now } with
  | .ok resp => .ok resp
  | .error _ => .error ⟨.PermissionDenied, some "Failed to sign payload"⟩

/-- `bastion_call_with_timestamp!` for `set_secret_key_threshold`. -/
def bastion_set_secret_key_threshold
    (client : ThresholdRequest → Except RpcStatus Unit) (now : NaiveDT)
    (req : ThresholdRequest) : Except RpcStatus Unit :=
  match client { req with timestamp := now } with
  | .ok resp => .ok resp
  | .error _ =>
    .error ⟨.PermissionDenied, some "Failed to update secret key threshold"⟩

/-- `bastion_call_with_timestamp!` for `set_user_key_weight`. -/
def bastion_set_user_key_weight
    (client : WeightRequest → Except RpcStatus Unit) (now : NaiveDT)
    (req : WeightRequest) : Except RpcStatus Unit :=
  match client { req with timestamp := now } with
  | .ok resp => .ok resp
  | .error _ =>
    .error ⟨.PermissionDenied, some "Failed to update user key weight"⟩

/-- `bastion_call!` for `get_logs` (no timestamp stamping). -/
def bastion_get_logs
    (client : LogRequest → Except RpcStatus (List WireLogEntry))
    (req : LogRequest) : Except RpcStatus (List WireLogEntry) :=
  match client req with
  | .ok resp => .ok resp
  | .error _ => .error ⟨.PermissionDenied, some "Failed to get audit logs"⟩

/-! ## Theorems: bastion error surfacing (C8) -/

/-- Counterexample to C8 as stated: the interior server fails `GetLogs` with
`Aborted("boom")`, but the bastion replies `PermissionDenied` with its own
fixed message — not the interior error verbatim. -/
theorem bastion_not_verbatim :
    bastion_get_logs (fun _ => .error ⟨.Aborted, some "boom"⟩) ⟨0⟩ =
      .error ⟨.PermissionDenied, some "Failed to get audit logs"⟩ ∧
    (⟨.Aborted, some "boom"⟩ : RpcStatus) ≠
      ⟨.PermissionDenied, some "Failed to get audit logs"⟩ :=
  ⟨rfl, by decide⟩

/-- C8 (amended): successful interior responses are forwarded unchanged
(with the server timestamp stamped onto mutating RPCs), but an interior
error is never surfaced verbatim — the bastion discards it and replies
`PermissionDenied` with a fixed per-operation message. -/
theorem bastion_forwarding_spec :
    (∀ (client : SignRequest → Except RpcStatus (List Nat)) now req resp,
      client { req with timestamp := now } = .ok resp →
        bastion_sign_payload client now req = .ok resp) ∧
    (∀ (client : SignRequest → Except RpcStatus (List Nat)) now req err,
      client { req with timestamp := now } = .error err →
        bastion_sign_payload client now req =
          .error ⟨.PermissionDenied, some "Failed to sign payload"⟩) ∧
    (∀ (client : ThresholdRequest → Except RpcStatus Unit) now req resp,
      client { req with timestamp := now } = .ok resp →
        bastion_set_secret_key_threshold client now req = .ok resp) ∧
    (∀ (client : ThresholdRequest → Except RpcStatus Unit) now req err,
      client { req with timestamp := now } = .error err →
        bastion_set_secret_key_threshold client now req =
          .error ⟨.PermissionDenied,
            some "Failed to update secret key threshold"⟩) ∧
    (∀ (client : WeightRequest → Except RpcStatus Unit) now req resp,
      client { req with timestamp := now } = .ok resp →
        bastion_set_user_key_weight client now req = .ok resp) ∧
    (∀ (client : WeightRequest → Except RpcStatus Unit) now req err,
      client { req with timestamp := now } = .error err →
        bastion_set_user_key_weight client now req =
          .error ⟨.PermissionDenied, some "Failed to update user key weight"⟩) ∧
    (∀ (client : LogRequest → Except RpcStatus (List WireLogEntry)) req resp,
      client req = .ok resp → bastion_get_logs client req = .ok resp) ∧
    (∀ (client : LogRequest → Except RpcStatus (List WireLogEntry)) req err,
      client req = .error err →
        bastion_get_logs client req =
          .error ⟨.PermissionDenied, some "Failed to get audit logs"⟩) := by
  refine ⟨?_, ?_, ?_, ?_, ?_, ?_, ?_, ?_⟩ <;>
    intro client
  · intro now req resp h; rw [bastion_sign_payload, h]
  · intro now req err h; rw [bastion_sign_payload, h]
  · intro now req resp h; rw [bastion_set_secret_key_threshold, h]
  · intro now req err h; rw [bastion_set_secret_key_threshold, h]
  · intro now req resp h; rw [bastion_set_user_key_weight, h]
  · intro now req err h; rw [bastion_set_user_key_weight, h]
  · intro req resp h; rw [bastion_get_logs, h]
  · intro req err h; rw [bastion_get_logs, h]

/-- Witness for C8 (amended): a successful sign response is forwarded
unchanged. -/
theorem bastion_forwarding_spec_witness :
    bastion_sign_payload (fun _ => .ok [1, 2]) ⟨9, 0⟩
      ⟨⟨"s", 0, []⟩, [], .PKCS1V1_5, ⟨0, 0⟩⟩ = .ok [1, 2] :=
  bastion_forwarding_spec.1 (fun _ => .ok [1, 2]) ⟨9, 0⟩
    ⟨⟨"s", 0, []⟩, [], .PKCS1V1_5, ⟨0, 0⟩⟩ [1, 2] rfl

/-! ## Theorems: RPC status codes (C6) -/

/-- A fully failing HSM oracle for concrete runs. -/
def hsmW : Hsm :=
  ⟨[], fun _ => [], fun _ _ _ => .error (), fun _ _ => .error ()⟩

/-- A secret named `t`, threshold 5, with no enrolled signers. -/
def dbT : Database := ⟨[⟨1, some 11, 5, 5, "t"⟩], [], [], [], []⟩

/-- Counterexample to C6 as stated: an authorization failure (insufficient
weight) on `SetThreshold` is rejected with `InvalidArgument`, not
`PermissionDenied`. -/
theorem threshold_auth_failure_invalid_argument :
    (set_secret_key_threshold_handler gpgW hsmW (fun _ => []) dbT
        ⟨⟨"t", 11, []⟩, 7, ⟨0, 0⟩⟩ ⟨0, 0⟩ []).2 =
      .error ⟨.InvalidArgument, some "Signatures do not meet threshold"⟩ ∧
    RpcStatusCode.InvalidArgument ≠ RpcStatusCode.PermissionDenied :=
  ⟨rfl, by decide⟩

/-- C6 (amended): every `Sign` failure — whatever its cause — maps to
`PermissionDenied`; every `SetThreshold`/`SetWeight` failure — including
authorization failures — maps to `InvalidArgument`; log-retrieval failures
map to `Aborted`. -/
theorem rpc_status_mapping :
    (∀ gpg hsm wire db req now rootHash e,
      FeroService.sign_payload gpg hsm db req.identification req.payload
          req.sigType = .error e →
        (sign_payload_handler gpg hsm wire db req now rootHash).2 =
          .error ⟨.PermissionDenied, some (serviceErrorMessage e)⟩) ∧
    (∀ gpg hsm wire db req now rootHash e,
      FeroService.set_secret_key_threshold gpg db req.identification
          req.threshold = .error e →
        (set_secret_key_threshold_handler gpg hsm wire db req now
            rootHash).2 =
          .error ⟨.InvalidArgument, some (serviceErrorMessage e)⟩) ∧
    (∀ gpg hsm wire db req now rootHash e,
      FeroService.set_user_key_weight gpg db req.identification req.userKeyId
          req.weight = .error e →
        (set_user_key_weight_handler gpg hsm wire db req now rootHash).2 =
          .error ⟨.InvalidArgument, some (serviceErrorMessage e)⟩) ∧
    (∀ parseIdent db req,
      FeroService.get_logs parseIdent db req.minIndex = .error () →
        get_logs_handler parseIdent db req =
          .error ⟨.Aborted, some "Failed to retrive logs"⟩) := by
  refine ⟨?_, ?_, ?_, ?_⟩
  · intro gpg hsm wire db req now rootHash e h
    simp only [sign_payload_handler, h]
  · intro gpg hsm wire db req now rootHash e h
    simp only [set_secret_key_threshold_handler, h]
  · intro gpg hsm wire db req now rootHash e h
    simp only [set_user_key_weight_handler, h]
  · intro parseIdent db req h
    simp only [get_logs_handler, h]

/-- Witness for C6 (amended), applying the threshold conjunct at a concrete
authorization failure. -/
theorem rpc_status_mapping_witness :
    (set_secret_key_threshold_handler gpgW hsmW (fun _ => []) dbT
        ⟨⟨"t", 11, [[0]]⟩, 7, ⟨0, 0⟩⟩ ⟨0, 0⟩ []).2 =
      .error ⟨.InvalidArgument, some "Signatures do not meet threshold"⟩ :=
  rpc_status_mapping.2.1 gpgW hsmW (fun _ => []) dbT
    ⟨⟨"t", 11, [[0]]⟩, 7, ⟨0, 0⟩⟩ ⟨0, 0⟩ []
    (.auth .insufficientWeight) rfl

/-! ## Theorems: SetThreshold update target and frame (C3) -/

/-- Two secrets: `a` (key id 1, threshold 0) and `b` (key id 2,
threshold 5). -/
def dbC : Database :=
  ⟨[⟨1, some 1, 0, 5, "a"⟩, ⟨2, some 2, 5, 6, "b"⟩], [], [], [], []⟩

/-- Counterexample to C3 as stated: an admitted `SetThreshold` request whose
identification names secret `a` but carries `secretKeyId = 2` leaves `a`'s
threshold unchanged (0, not the requested 7) and instead rewrites secret
`b`'s threshold to 7. -/
theorem set_threshold_wrong_secret :
    FeroService.set_secret_key_threshold gpgW dbC ⟨"a", 2, []⟩ 7 =
      .ok ⟨[⟨1, some 1, 0, 5, "a"⟩, ⟨2, some 2, 7, 6, "b"⟩],
        [], [], [], []⟩ ∧
    ((⟨[⟨1, some 1, 0, 5, "a"⟩, ⟨2, some 2, 7, 6, "b"⟩], [], [], [], []⟩ :
        Database).secrets.filter fun s => s.name = "a").getLast?.map
      (fun s => s.threshold) = some 0 :=
  ⟨rfl, by decide⟩

/-- C3 (amended): an admitted `SetThreshold` request sets the requested
threshold on exactly the secrets whose stored `key_id` equals the
identification's `secretKeyId` (as `i64`) — each keeping all other fields —
while every other secret, all users, all weight rows and both log tables are
untouched.  The secret actually named in the identification is only updated
when its `key_id` matches that field. -/
theorem set_threshold_updates_by_key_id (gpg : GpgEngine) (db : Database)
    (ident : Identification) (threshold : Int) (db2 : Database)
    (h : FeroService.set_secret_key_threshold gpg db ident threshold =
      .ok db2) :
    db2.users = db.users ∧ db2.weights = db.weights ∧
    db2.hsm_logs = db.hsm_logs ∧ db2.fero_logs = db.fero_logs ∧
    db2.secrets = db.secrets.map (fun s =>
      if s.key_id = some (u64AsI64 ident.secretKeyId) then
        { s with threshold := threshold }
      else s) := by
  rw [FeroService.set_secret_key_threshold] at h
  revert h
  cases Configuration.authenticate gpg db ident
      (stringBytes ident.secretKeyName ++ beI32 threshold) with
  | error e => intro h; exact absurd h (by simp)
  | ok pr =>
    intro h
    have h2 : AuthenticatedConnection.set_secret_key_threshold db
        ident.secretKeyId threshold = db2 := by
      simpa using h
    subst h2
    exact ⟨rfl, rfl, rfl, rfl, rfl⟩

/-- Witness for C3 (amended) at the concrete mismatched-id request. -/
theorem set_threshold_updates_by_key_id_witness :
    (⟨[⟨1, some 1, 0, 5, "a"⟩, ⟨2, some 2, 7, 6, "b"⟩], [], [], [], []⟩ :
        Database).secrets =
      dbC.secrets.map (fun s =>
        if s.key_id = some (u64AsI64 (2 : Nat)) then { s with threshold := 7 }
        else s) :=
  (set_threshold_updates_by_key_id gpgW dbC ⟨"a", 2, []⟩ 7
    ⟨[⟨1, some 1, 0, 5, "a"⟩, ⟨2, some 2, 7, 6, "b"⟩], [], [], [], []⟩
    rfl).2.2.2.2

/-! ## Theorems: logged timestamps (C4) -/

/-- The empty store. -/
def dbEmpty : Database := ⟨[], [], [], [], []⟩

/-- C4 analysis (code bug): the entry `log_operation` appends always carries
the append-time clock `now` that `create_fero_log` reads — `log_operation`
has no parameter at all for the handler's request-derived timestamp — so a
`Sign` request stamped 1000s whose append happens at 2000s is persisted with
timestamp 2000s, contradicting the claim. -/
theorem log_timestamp_is_append_clock :
    (∀ wire hsm db ty res ident now rootHash,
      ((log_operation wire hsm db ty res ident now
          rootHash).fero_logs.getLast?).map (fun e => e.timestamp) =
        some now) ∧
    ((sign_payload_handler gpgW hsmW (fun _ => []) dbEmpty
        ⟨⟨"x", 0, []⟩, [], .PKCS1V1_5, ⟨1000, 0⟩⟩ ⟨2000, 0⟩
        []).1.fero_logs.getLast?).map (fun e => e.timestamp) =
      some ⟨2000, 0⟩ ∧
    (⟨1000, 0⟩ : NaiveDT) ≠ ⟨2000, 0⟩ := by
  refine ⟨?_, rfl, by decide⟩
  intro wire hsm db ty res ident now rootHash
  rw [log_operation]
  simp [Configuration.insert_fero_log, create_fero_log]

/-! ## Theorems: HSM mirroring indices (C5) -/

theorem mem_insertSorted {α : Type} (key : α → Int) (x : α) :
    ∀ (l : List α) (z : α), z ∈ insertSorted key x l ↔ z = x ∨ z ∈ l := by
  intro l
  induction l with
  | nil => intro z; simp [insertSorted]
  | cons y ys ih =>
    intro z
    rw [insertSorted]
    by_cases h : key x ≤ key y
    · simp [h]
    · simp only [h, if_false, List.mem_cons, ih]
      tauto

theorem mem_sortByKey {α : Type} (key : α → Int) :
    ∀ (l : List α) (z : α), z ∈ sortByKey key l ↔ z ∈ l := by
  intro l
  induction l with
  | nil => intro z; simp [sortByKey]
  | cons y ys ih =>
    intro z
    show z ∈ insertSorted key y (sortByKey key ys) ↔ _
    rw [mem_insertSorted, ih]
    simp

theorem pairwise_insertSorted {α : Type} (key : α → Int) (x : α) :
    ∀ (l : List α),
      List.Pairwise (fun a b => key a ≤ key b) l →
      List.Pairwise (fun a b => key a ≤ key b) (insertSorted key x l) := by
  intro l
  induction l with
  | nil => intro _; simp [insertSorted]
  | cons y ys ih =>
    intro hp
    obtain ⟨hy, hys⟩ := List.pairwise_cons.mp hp
    rw [insertSorted]
    by_cases h : key x ≤ key y
    · rw [if_pos h]
      refine List.pairwise_cons.mpr ⟨?_, hp⟩
      intro z hz
      rcases List.mem_cons.mp hz with rfl | hz2
      · exact h
      · exact le_trans h (hy z hz2)
    · rw [if_neg h]
      refine List.pairwise_cons.mpr ⟨?_, ih hys⟩
      intro z hz
      rcases (mem_insertSorted key x ys z).mp hz with rfl | hz2
      · omega
      · exact hy z hz2

theorem pairwise_sortByKey {α : Type} (key : α → Int) :
    ∀ (l : List α),
      List.Pairwise (fun a b => key a ≤ key b) (sortByKey key l) := by
  intro l
  induction l with
  | nil => simp [sortByKey]
  | cons y ys ih => exact pairwise_insertSorted key y _ ih

theorem key_le_getLast {α : Type} (key : α → Int) :
    ∀ (l : List α), List.Pairwise (fun a b => key a ≤ key b) l →
      ∀ (x m : α), x ∈ l → l.getLast? = some m → key x ≤ key m := by
  intro l
  induction l with
  | nil => intro _ x m hx; simp at hx
  | cons y ys ih =>
    intro hp x m hx hlast
    obtain ⟨hy, hys⟩ := List.pairwise_cons.mp hp
    cases ys with
    | nil =>
      simp at hlast hx
      subst hlast; subst hx
      exact le_refl _
    | cons z zs =>
      have hlast2 : (z :: zs).getLast? = some m := by
        simpa [List.getLast?] using hlast
      rcases List.mem_cons.mp hx with rfl | hx2
      · have hm : m ∈ z :: zs := List.mem_of_getLast?_eq_some hlast2
        exact hy m hm
      · exact ih hys x m hx2 hlast2

/-- Every stored HSM row's index is bounded by `last_hsm_log_entry`'s
index. -/
theorem hsm_index_le_last (db : Database) (r : HsmLogRow)
    (hr : r ∈ db.hsm_logs) :
    r.hsm_index ≤
      ((Configuration.last_hsm_log_entry db).map fun l => l.hsm_index).getD
        0 := by
  cases hlast : Configuration.last_hsm_log_entry db with
  | none =>
    rw [Configuration.last_hsm_log_entry] at hlast
    have : r ∈ sortByKey (fun h => h.hsm_index) db.hsm_logs :=
      (mem_sortByKey _ _ _).mpr hr
    rw [List.getLast?_eq_none_iff] at hlast
    rw [hlast] at this
    simp at this
  | some m =>
    rw [Configuration.last_hsm_log_entry] at hlast
    have hmem : r ∈ sortByKey (fun h => h.hsm_index) db.hsm_logs :=
      (mem_sortByKey _ _ _).mpr hr
    have := key_le_getLast (fun h => h.hsm_index) _
      (pairwise_sortByKey _ _) r m hmem hlast
    simpa using this

/-- The rows `insert_hsm_logs` appends, with their assigned rowids. -/
def insertedRows (base : Int) : List NewHsmLog → List HsmLogRow
  | [] => []
  | log :: rest =>
    ⟨base, log.hsm_index, log.command, log.data_length, log.session_key,
      log.target_key, log.second_key, log.result, log.systick, log.hash⟩ ::
      insertedRows (base + 1) rest

theorem le_foldl_max (l : List Int) : ∀ (a : Int), a ≤ l.foldl max a := by
  induction l with
  | nil => intro a; simp
  | cons x xs ih =>
    intro a
    exact le_trans (le_max_left a x) (ih (max a x))

theorem nextRowId_append (ids : List Int) :
    nextRowId (ids ++ [nextRowId ids]) = nextRowId ids + 1 := by
  rw [nextRowId, nextRowId, List.foldl_append]
  simp only [List.foldl_cons, List.foldl_nil]
  have h := le_foldl_max ids 0
  omega

theorem insert_hsm_logs_spec (logs : List NewHsmLog) : ∀ (db : Database),
    Configuration.insert_hsm_logs db logs =
    ({ db with
        hsm_logs := db.hsm_logs ++ insertedRows (nextHsmRowId db) logs },
      some (if logs.isEmpty then 0
        else nextHsmRowId db + logs.length - 1)) := by
  suffices hgo : ∀ (db : Database) (v : Int),
      logs.foldl
        (fun (st : Database × Int) log =>
          let rid := nextHsmRowId st.1
          ({ st.1 with
              hsm_logs := st.1.hsm_logs ++
                [⟨rid, log.hsm_index, log.command, log.data_length,
                  log.session_key, log.target_key, log.second_key,
                  log.result, log.systick, log.hash⟩] }, rid))
        (db, v) =
      ({ db with
          hsm_logs := db.hsm_logs ++ insertedRows (nextHsmRowId db) logs },
        if logs.isEmpty then v
        else nextHsmRowId db + logs.length - 1) by
    intro db
    rw [Configuration.insert_hsm_logs, hgo db 0]
  induction logs with
  | nil => intro db v; simp [insertedRows]
  | cons log rest ih =>
    intro db v
    rw [List.foldl_cons]
    have hnext : nextHsmRowId
        { db with
            hsm_logs := db.hsm_logs ++
              [⟨nextHsmRowId db, log.hsm_index, log.command, log.data_length,
                log.session_key, log.target_key, log.second_key, log.result,
                log.systick, log.hash⟩] } = nextHsmRowId db + 1 := by
      show nextRowId _ = _
      rw [List.map_append]
      exact nextRowId_append (db.hsm_logs.map fun r => r.id)
    have hmid := ih
      ({ db with
          hsm_logs := db.hsm_logs ++
            [⟨nextHsmRowId db, log.hsm_index, log.command, log.data_length,
              log.session_key, log.target_key, log.second_key, log.result,
              log.systick, log.hash⟩] }) (nextHsmRowId db)
    refine hmid.trans ?_
    rw [hnext]
    simp only [Prod.mk.injEq]
    refine ⟨?_, ?_⟩
    · simp [insertedRows]
    · cases rest with
      | nil => simp [insertedRows]
      | cons a as =>
        simp only [List.isEmpty_cons, List.length_cons]
        push_cast
        omega

/-- The batch `log_operation` drains from the device: `logs_since` the last
mirrored index, or all device logs when nothing was mirrored. -/
def drainedBatch (hsm : Hsm) (db : Database) : List DeviceLogEntry :=
  match Configuration.last_hsm_log_entry db with
  | some l => hsm.logsSince (u16OfI32 l.hsm_index)
  | none => hsm.logs

/-- The device index of the last previously mirrored HSM entry (0 when the
mirror is empty). -/
def lastMirroredIndex (db : Database) : Int :=
  ((Configuration.last_hsm_log_entry db).map fun l => l.hsm_index).getD 0

theorem insert_fero_log_getLast (d : Database) (lg : NewFeroLog) :
    (Configuration.insert_fero_log d lg).fero_logs.getLast? =
      some ⟨nextFeroRowId d, lg.request_type, lg.timestamp, lg.result,
        lg.hsm_index_start, lg.hsm_index_end, lg.identification, lg.hash⟩ := by
  rw [Configuration.insert_fero_log]
  exact List.getLast?_concat _

theorem associated_mem_iff (dbF : Database) (e : FeroLogRow)
    (dbOld : Database) (newRows : List HsmLogRow)
    (hsplit : dbF.hsm_logs = dbOld.hsm_logs ++ newRows)
    (hstart : e.hsm_index_start = lastMirroredIndex dbOld) :
    ∀ r, r ∈ Configuration.associated_hsm_logs dbF e ↔
      (r ∈ newRows ∧ e.hsm_index_start < r.hsm_index ∧
        r.hsm_index ≤ e.hsm_index_end) := by
  intro r
  rw [Configuration.associated_hsm_logs]
  rw [List.mem_filter]
  rw [mem_sortByKey, hsplit, List.mem_append]
  simp only [decide_eq_true_eq]
  constructor
  · rintro ⟨hold | hnew, hp⟩
    · exfalso
      have hle := hsm_index_le_last dbOld r hold
      rw [← lastMirroredIndex, ← hstart] at hle
      omega
    · exact ⟨hnew, hp⟩
  · rintro ⟨hnew, hp⟩
    exact ⟨Or.inr hnew, hp⟩

/-- C5 (amended): the entry appended by `log_operation` carries
`hsm_index_start` = the device index of the last previously mirrored entry
(0 if none) and `hsm_index_end` = the rowid `last_insert_rowid()` returned
by the mirroring transaction (0 when the batch is empty, otherwise the rowid
of the batch's last inserted row — not, in general, its device index); the
mirror table gains exactly the batch rows under fresh consecutive rowids,
and the rows the store associates with the new entry are exactly those
just-mirrored rows whose device `hsm_index` happens to fall in the rowid
interval `(hsm_index_start, hsm_index_end]`. -/
theorem log_operation_hsm_range (wire : Identification → List Nat)
    (hsm : Hsm) (db : Database) (ty : OperationType) (res : OperationResult)
    (ident : Option Identification) (now : NaiveDT) (rootHash : List Nat) :
    ∃ e, (log_operation wire hsm db ty res ident now
        rootHash).fero_logs.getLast? = some e ∧
      e.hsm_index_start = lastMirroredIndex db ∧
      e.hsm_index_end = (if (drainedBatch hsm db).isEmpty then 0
        else nextHsmRowId db + (drainedBatch hsm db).length - 1) ∧
      (log_operation wire hsm db ty res ident now rootHash).hsm_logs =
        db.hsm_logs ++ insertedRows (nextHsmRowId db)
          ((drainedBatch hsm db).map NewHsmLog.fromDevice) ∧
      ∀ r, r ∈ Configuration.associated_hsm_logs
          (log_operation wire hsm db ty res ident now rootHash) e ↔
        (r ∈ insertedRows (nextHsmRowId db)
            ((drainedBatch hsm db).map NewHsmLog.fromDevice) ∧
          e.hsm_index_start < r.hsm_index ∧
          r.hsm_index ≤ e.hsm_index_end) := by
  have hb : (match Configuration.last_hsm_log_entry db with
      | some l => hsm.logsSince (u16OfI32 l.hsm_index)
      | none => hsm.logs) = drainedBatch hsm db := rfl
  have hL : ((Configuration.last_hsm_log_entry db).map
      fun l => l.hsm_index).getD 0 = lastMirroredIndex db := rfl
  have hins := insert_hsm_logs_spec
    ((drainedBatch hsm db).map NewHsmLog.fromDevice) db
  have hend : (if ((drainedBatch hsm db).map NewHsmLog.fromDevice).isEmpty
        then (0 : Int)
        else nextHsmRowId db +
          ((drainedBatch hsm db).map NewHsmLog.fromDevice).length - 1) =
      (if (drainedBatch hsm db).isEmpty then 0
        else nextHsmRowId db + (drainedBatch hsm db).length - 1) := by
    cases drainedBatch hsm db <;> simp
  simp only [log_operation, hb, hL, hins]
  cases hfe : Configuration.last_fero_log_entry
      { db with
          hsm_logs := db.hsm_logs ++ insertedRows (nextHsmRowId db)
            ((drainedBatch hsm db).map NewHsmLog.fromDevice) } with
  | some p =>
    refine ⟨_, insert_fero_log_getLast _ _, rfl, ?_, rfl, ?_⟩
    · exact hend
    · exact associated_mem_iff _ _ db _ rfl rfl
  | none =>
    refine ⟨_, insert_fero_log_getLast _ _, rfl, ?_, rfl, ?_⟩
    · exact hend
    · exact associated_mem_iff _ _ db _ rfl rfl

/-- A device whose full log is a single entry with device index 5. -/
def hsmB : Hsm :=
  ⟨[⟨5, 0, 0, 0, 0, 0, 0, 0, []⟩], fun _ => [],
   fun _ _ _ => .error (), fun _ _ => .error ()⟩

/-- Counterexample to C5 as stated: mirroring a one-entry batch with device
index 5 into an empty store appends a Fero entry with
`hsm_index_end = 1` (the rowid) rather than 5 (the device index), and the
stored rows with `0 < hsm_index ≤ 1` are the empty set, not the mirrored
batch (which is stored, with `hsm_index` 5, outside the range). -/
theorem log_operation_rowid_counterexample :
    ((log_operation (fun _ => []) hsmB dbEmpty .Sign .Success none ⟨0, 0⟩
        []).fero_logs.getLast?).map
      (fun e => (e.hsm_index_start, e.hsm_index_end)) = some (0, 1) ∧
    (hsmB.logs.map fun l => l.index) = [5] ∧
    (log_operation (fun _ => []) hsmB dbEmpty .Sign .Success none ⟨0, 0⟩
        []).hsm_logs = [⟨1, 5, 0, 0, 0, 0, 0, 0, 0, []⟩] ∧
    ((log_operation (fun _ => []) hsmB dbEmpty .Sign .Success none ⟨0, 0⟩
        []).fero_logs.getLast?).map
      (fun e => Configuration.associated_hsm_logs
        (log_operation (fun _ => []) hsmB dbEmpty .Sign .Success none ⟨0, 0⟩
          []) e) = some [] :=
  ⟨rfl, rfl, rfl, rfl⟩

end Fero
